import Mathlib

/-
Verification development for the tools-archetype operational HTTP service.
Strings from the Go sources are modelled as `List Char`; the data directory
is modelled as a finite map from file names to byte contents; every `os.*`
call made by a file operation is recorded in an explicit access trace.
-/

set_option autoImplicit false

-- ===========================================================================
-- Go `path/filepath.Base` (unix), used by SafeFilename / safeFilename.
-- Go: strip trailing separators; keep the suffix after the last separator;
-- if nothing remains the path was all separators and Base returns "/";
-- Base("") = ".".
-- ===========================================================================

/-- Remove trailing path separators, as the first loop of Go `filepath.Base`. -/
def stripTrailingSep (p : List Char) : List Char :=
  (p.reverse.dropWhile (fun c => c = '/')).reverse

/-- Suffix after the last path separator (the whole list when no separator). -/
def afterLastSep (p : List Char) : List Char :=
  (p.reverse.takeWhile (fun c => ¬ (c = '/'))).reverse

/-- Go `filepath.Base` for unix separators. -/
def goBase (path : List Char) : List Char :=
  if path = [] then ['.']
  else if afterLastSep (stripTrailingSep path) = [] then ['/']
  else afterLastSep (stripTrailingSep path)

/-- `SafeFilename` of pkg/monitoring/monitor.go and `safeFilename` of main.go:
rejects "", ".", ".." and any name whose `filepath.Base` differs from the
name itself. -/
def safeFilename (name : List Char) : Bool :=
  if name = [] then false
  else if name = ['.'] then false
  else if name = ['.', '.'] then false
  else decide (goBase name = name)

-- ===========================================================================
-- The protected filename set (identical in main.go and in the monitoring
-- handler file): names that DataDelete / the delete route never remove.
-- ===========================================================================

/-- File name inside the data directory. -/
abbrev FileName := List Char

/-- The fixed protected set `{".first-mount.sh", "lost+found"}`. -/
def protectedFiles : List FileName :=
  [".first-mount.sh".toList, "lost+found".toList]

-- ===========================================================================
-- Data-directory state and the `os` layer used by the file operations.
-- ===========================================================================

/-- Contents of the data directory: an association of names to byte contents. -/
abbrev FS := List (FileName × List Char)

/-- First-match association lookup (Go map read). -/
def assocFind {β : Type} (l : List (FileName × β)) (k : FileName) : Option β :=
  match l with
  | [] => none
  | (n, v) :: rest => if n = k then some v else assocFind rest k

/-- Remove every binding of `name` (effect of `os.Remove`). -/
def fsErase (fs : FS) (name : FileName) : FS :=
  match fs with
  | [] => []
  | p :: rest => if p.1 = name then fsErase rest name else p :: fsErase rest name

/-- Create-or-overwrite a binding (effect of `os.WriteFile`). -/
def fsWrite (fs : FS) (name content : List Char) : FS :=
  (name, content) :: fsErase fs name

/-- One recorded filesystem access (an `os.ReadFile`/`os.Open`,
`os.WriteFile`, or `os.Remove` call actually issued). -/
inductive Access
  | readA (name : FileName)
  | writeA (name : FileName)
  | removeA (name : FileName)
deriving DecidableEq

/-- Error conditions of the file operations. -/
inductive FileErr
  | invalidFilename
  | protectedFile
  | notFound
  | ioError
deriving DecidableEq

/-- Message of a failed write (`os.WriteFile` on a non-writable directory). -/
def writeErrMsg : List Char := "permission denied".toList

/-- Message of a failed `os.Remove` of a missing file. -/
def notFoundMsg : List Char := "no such file or directory".toList

/-- `os.WriteFile` on the data directory: succeeds iff the directory is
writable. -/
def osWriteFile (fs : FS) (name content : List Char) (writable : Bool) :
    Except (List Char) FS :=
  if writable then .ok (fsWrite fs name content) else .error writeErrMsg

/-- `os.Remove`: removes the file or fails when it does not exist. -/
def osRemove (fs : FS) (name : FileName) : Except FileErr FS :=
  match assocFind fs name with
  | some _ => .ok (fsErase fs name)
  | none => .error .notFound

-- ===========================================================================
-- monitoring.ReadFile / WriteFile / DeleteFile (pkg/monitoring/monitor.go).
-- Each returns its result, the resulting directory state, and the trace of
-- `os` calls it issued.
-- ===========================================================================

/-- Outcome of one file operation. -/
structure FileOpOut (α : Type) where
  result : Except FileErr α
  fs : FS
  accesses : List Access

/-- The Detail of `ReadFile`: `{"bytes": len(b), "content": string(b)}`
(the joined "path" field carries no information beyond dir and name and is
not modelled). -/
structure ReadDetail where
  bytes : Nat
  content : List Char
deriving DecidableEq

/-- The Detail of `WriteFile`: `{"bytes": len(content)}`. -/
structure WriteDetail where
  bytes : Nat
deriving DecidableEq

/-- `monitoring.ReadFile`: guard the name, then `os.ReadFile`. -/
def ReadFile (fs : FS) (name : FileName) : FileOpOut ReadDetail :=
  if safeFilename name then
    match assocFind fs name with
    | some b => ⟨.ok ⟨b.length, b⟩, fs, [.readA name]⟩
    | none => ⟨.error .notFound, fs, [.readA name]⟩
  else ⟨.error .invalidFilename, fs, []⟩

/-- `monitoring.WriteFile`: guard the name, then `os.WriteFile`. -/
def WriteFile (fs : FS) (name content : List Char) (writable : Bool) :
    FileOpOut WriteDetail :=
  if safeFilename name then
    match osWriteFile fs name content writable with
    | .ok fs2 => ⟨.ok ⟨content.length⟩, fs2, [.writeA name]⟩
    | .error _ => ⟨.error .ioError, fs, [.writeA name]⟩
  else ⟨.error .invalidFilename, fs, []⟩

/-- Go `protected != nil && protected[name]` of `DeleteFile`. -/
def protGuard (prot : Option (List FileName)) (name : FileName) : Bool :=
  match prot with
  | none => false
  | some l => decide (name ∈ l)

/-- `monitoring.DeleteFile`: guard the name, then the protected set, then
`os.Remove`. -/
def DeleteFile (fs : FS) (name : FileName) (prot : Option (List FileName)) :
    FileOpOut FileName :=
  if safeFilename name then
    if protGuard prot name then ⟨.error .protectedFile, fs, []⟩
    else
      match osRemove fs name with
      | .ok fs2 => ⟨.ok name, fs2, [.removeA name]⟩
      | .error e => ⟨.error e, fs, [.removeA name]⟩
  else ⟨.error .invalidFilename, fs, []⟩

-- ===========================================================================
-- The Check Runner (`runCheck` in main.go and `handler.run` in the monitoring
-- handler file): wraps a probe outcome `(detail, err)` into the JSON envelope.
-- Elapsed wall-clock time is measured by a monotonic clock, hence a natural
-- number of milliseconds.
-- ===========================================================================

/-- The JSON envelope produced by the check runner. -/
structure Envelope (α : Type) where
  httpCode : Nat
  status : List Char
  name : List Char
  latencyMs : Int
  errorField : Option (List Char)
  detail : α

/-- The check runner: on a probe error emit 503 with status "error", the
error message and the partial detail; on success emit 200 with status "ok"
and the full detail. -/
def runCheck {α : Type} (name : List Char) (elapsedMs : Nat)
    (probeOut : α × Option (List Char)) : Envelope α :=
  match probeOut.2 with
  | some msg => ⟨503, "error".toList, name, (elapsedMs : Int), some msg, probeOut.1⟩
  | none => ⟨200, "ok".toList, name, (elapsedMs : Int), none, probeOut.1⟩

-- ===========================================================================
-- monitoring.FilesystemSelfTest: write a timestamped temp file, read it
-- back, compare, delete, report.
-- ===========================================================================

/-- Name of the self-test temp file: "selftest-" + timestamp + ".txt". -/
def selfTestName (now : List Char) : List Char :=
  "selftest-".toList ++ now ++ ".txt".toList

/-- Content of the self-test temp file: "selftest at " + timestamp. -/
def selfTestContent (now : List Char) : List Char :=
  "selftest at ".toList ++ now

/-- The Detail a self-test returns: either a step/path failure detail, or
the full report `{dir, file, writeBytes, readBytes, match, deleteErr}`. -/
inductive SelfDetail
  | stepDetail (step : List Char)
  | reportDetail (writeBytes readBytes : Nat) (contentMatch : Bool)
      (deleteErr : List Char)
deriving DecidableEq

/-- `monitoring.FilesystemSelfTest`: write, read back, compare, delete.
Returns the probe outcome `(detail, err)`, the directory state and the
trace of filesystem accesses. -/
def FilesystemSelfTest (fs : FS) (writable : Bool) (now : List Char) :
    (SelfDetail × Option (List Char)) × FS × List Access :=
  let name := selfTestName now
  let content := selfTestContent now
  match osWriteFile fs name content writable with
  | .error e => ((.stepDetail "write".toList, some e), fs, [.writeA name])
  | .ok fs1 =>
    match assocFind fs1 name with
    | none => ((.stepDetail "open".toList, some notFoundMsg), fs1,
        [.writeA name, .readA name])
    | some got =>
      match osRemove fs1 name with
      | .ok fs2 =>
          ((.reportDetail content.length got.length (decide (got = content)) [],
            none), fs2, [.writeA name, .readA name, .removeA name])
      | .error _ =>
          ((.reportDetail content.length got.length (decide (got = content))
            notFoundMsg, none), fs1, [.writeA name, .readA name, .removeA name])

-- ===========================================================================
-- monitoring.Services: HTTP GET probes against a list of URLs.
-- The network is modelled by an oracle `fetch` giving each URL either a
-- connection error message or an HTTP status code.
-- ===========================================================================

/-- A URL. -/
abbrev Url := List Char

/-- Per-URL entry of the services result map:
`{"status": ..., "code": ...}` or `{"status": "error", "error": ...}`. -/
structure SvcEntry where
  status : List Char
  code : Option Nat
  errMsg : Option (List Char)
deriving DecidableEq

/-- Whether one URL probe counts as OK (connected and 2xx). -/
def svcOK (r : Except (List Char) Nat) : Bool :=
  match r with
  | .error _ => false
  | .ok code => decide (200 ≤ code ∧ code < 300)

/-- The result-map entry for one URL probe outcome. -/
def probeEntry (r : Except (List Char) Nat) : SvcEntry :=
  match r with
  | .error e => ⟨"error".toList, none, some e⟩
  | .ok code =>
    if 200 ≤ code ∧ code < 300 then ⟨"ok".toList, some code, none⟩
    else ⟨"degraded".toList, some code, none⟩

/-- The loop of `Services`: builds the per-URL results map and the `allOK`
flag. -/
def servicesLoop (fetch : Url → Except (List Char) Nat) :
    List Url → List (Url × SvcEntry) × Bool
  | [] => ([], true)
  | u :: rest =>
    let tail := servicesLoop fetch rest
    ((u, probeEntry (fetch u)) :: tail.1, svcOK (fetch u) && tail.2)

/-- `monitoring.Services`: returns the per-URL map, and the aggregate error
"one or more services failing" unless every URL was OK. -/
def Services (fetch : Url → Except (List Char) Nat) (urls : List Url) :
    List (Url × SvcEntry) × Option (List Char) :=
  let r := servicesLoop fetch urls
  if r.2 then (r.1, none) else (r.1, some "one or more services failing".toList)

-- ===========================================================================
-- The two delete handlers: `DataDelete` of the monitoring handler file and
-- the `api.DELETE` route of main.go.
-- ===========================================================================

/-- ASCII whitespace recognised by `strings.TrimSpace` (the file-name inputs
of interest are ASCII). -/
def isSpaceC (c : Char) : Bool :=
  c = ' ' ∨ c = '\t' ∨ c = '\n' ∨ c = '\r'

/-- `strings.TrimSpace` on ASCII input. -/
def trimSpace (s : List Char) : List Char :=
  ((s.dropWhile isSpaceC).reverse.dropWhile isSpaceC).reverse

/-- Escaping of `"` and `\` inside a Go `%q` quotation (the names involved
are printable ASCII, for which `%q` only wraps in quotes and escapes these
two characters). -/
def escapeQ : List Char → List Char
  | [] => []
  | c :: rest =>
    if c = '"' ∨ c = '\\' then '\\' :: c :: escapeQ rest else c :: escapeQ rest

/-- Go `fmt.Sprintf("%q", s)` for printable-ASCII `s`. -/
def goQuote (s : List Char) : List Char :=
  '"' :: escapeQ s ++ ['"']

/-- The 403 message of `DataDelete`:
`fmt.Sprintf("%q is protected and cannot be deleted", name)`. -/
def protectedMsg (name : FileName) : List Char :=
  goQuote name ++ " is protected and cannot be deleted".toList

/-- Response of the `DataDelete` handler. -/
inductive DataDeleteOut
  | badRequest (msg : List Char)
  | forbidden (msg : List Char)
  | runnerOut (o : FileOpOut FileName)

/-- HTTP status code of a `DataDelete` response (the runner branch maps a
probe error to 503 and success to 200). -/
def dataDeleteCode : DataDeleteOut → Nat
  | .badRequest _ => 400
  | .forbidden _ => 403
  | .runnerOut o => match o.result with | .ok _ => 200 | .error _ => 503

/-- The `DataDelete` handler: trim the query, reject a missing name, return
403 for a protected name, otherwise run `DeleteFile` with the protected set
through the check runner. -/
def dataDelete (fs : FS) (fileQ : List Char) : DataDeleteOut × FS :=
  let name := trimSpace fileQ
  if name = [] then (.badRequest "missing file query param".toList, fs)
  else if name ∈ protectedFiles then (.forbidden (protectedMsg name), fs)
  else
    let o := DeleteFile fs name (some protectedFiles)
    (.runnerOut o, o.fs)

/-- Response of main.go's `api.DELETE` route. -/
inductive MainDeleteOut
  | badRequest
  | forbidden (msg : List Char)
  | serverError
  | deleted (name : FileName)
deriving DecidableEq

/-- HTTP status code of a main.go delete response. -/
def mainDeleteCode : MainDeleteOut → Nat
  | .badRequest => 400
  | .forbidden _ => 403
  | .serverError => 500
  | .deleted _ => 200

/-- main.go's delete route: reject missing/unsafe names, return 403 with the
fixed message "file is protected and cannot be deleted" for a protected
name, otherwise `os.Remove`. -/
def mainDataDelete (fs : FS) (fileQ : List Char) : MainDeleteOut × FS :=
  if fileQ = [] ∨ safeFilename fileQ = false then (.badRequest, fs)
  else if fileQ ∈ protectedFiles then
    (.forbidden "file is protected and cannot be deleted".toList, fs)
  else
    match osRemove fs fileQ with
    | .ok fs2 => (.deleted fileQ, fs2)
    | .error _ => (.serverError, fs)

/-- A concrete network oracle used to instantiate the Services theorems:
one URL answers 200, every other URL fails to connect. -/
def exFetch : Url → Except (List Char) Nat := fun u =>
  if u = "http://ok.example".toList then .ok 200
  else .error "connection refused".toList

-- ===========================================================================
-- Helper lemmas
-- ===========================================================================

/-- The suffix after the last separator contains no separator. -/
theorem slash_not_mem_afterLastSep (p : List Char) : '/' ∉ afterLastSep p := by
  intro h
  unfold afterLastSep at h
  rw [List.mem_reverse] at h
  have := List.mem_takeWhile_imp h
  simp at this

/-- For a name containing a separator other than "/" itself, `filepath.Base`
changes the name. -/
theorem goBase_ne_of_slash {name : List Char} (hs : '/' ∈ name)
    (hne : name ≠ ['/']) : goBase name ≠ name := by
  have hnil : name ≠ [] := by rintro rfl; simp at hs
  unfold goBase
  rw [if_neg hnil]
  split
  · intro h; exact hne h.symm
  · intro h
    have hmem := slash_not_mem_afterLastSep (stripTrailingSep name)
    rw [h] at hmem
    exact hmem hs

/-- Looking up a just-written name returns the written content. -/
theorem assocFind_fsWrite_self (fs : FS) (n c : List Char) :
    assocFind (fsWrite fs n c) n = some c := by
  simp [fsWrite, assocFind]

/-- Looking up an erased name returns nothing. -/
theorem assocFind_fsErase_self (fs : FS) (n : List Char) :
    assocFind (fsErase fs n) n = none := by
  induction fs with
  | nil => rfl
  | cons p rest ih =>
    obtain ⟨pn, pv⟩ := p
    by_cases h : pn = n
    · simpa [fsErase, h] using ih
    · simpa [fsErase, assocFind, h] using ih

-- ===========================================================================
-- Claim theorems
-- ===========================================================================

/-- C1 counterexample: the name "a..b" contains ".." yet `safeFilename`
accepts it, and the name "/" contains '/' yet `safeFilename` accepts it
(Go `filepath.Base "/" = "/"`), so the claim as stated is false. -/
theorem safeFilename_rejects_counterexample :
    ((['.', '.'] <:+: ("a..b".toList)) ∧ safeFilename ("a..b".toList) = true) ∧
    (('/' ∈ ("/".toList)) ∧ safeFilename ("/".toList) = true) := by decide

/-- C1 (amended): for every name equal to "", "." or "..", and every name
containing '/' other than the one-character name "/", the filename-safety
predicate returns false. (A name merely containing ".." as a substring is
accepted.) -/
theorem safeFilename_rejects_amended (name : List Char)
    (h : ('/' ∈ name ∧ name ≠ ['/']) ∨ name = [] ∨ name = ['.'] ∨
      name = ['.', '.']) :
    safeFilename name = false := by
  rcases h with ⟨hs, hne⟩ | rfl | rfl | rfl
  · have h1 : name ≠ [] := by rintro rfl; simp at hs
    have h2 : name ≠ ['.'] := by rintro rfl; simp at hs
    have h3 : name ≠ ['.', '.'] := by rintro rfl; simp at hs
    unfold safeFilename
    rw [if_neg h1, if_neg h2, if_neg h3]
    simpa using goBase_ne_of_slash hs hne
  · rfl
  · rfl
  · rfl

/-- C1 witness: the amended claim at the concrete name "a/b". -/
theorem safeFilename_rejects_amended_witness :
    (('/' ∈ ("a/b".toList)) ∧ ("a/b".toList) ≠ ['/']) ∧
    safeFilename ("a/b".toList) = false :=
  ⟨by decide, safeFilename_rejects_amended _ (Or.inl (by decide))⟩

/-- C2: for every name the safety predicate rejects, each of ReadFile,
WriteFile and DeleteFile returns the invalid-filename error, leaves the
directory unchanged, and issues no filesystem access at all. -/
theorem fileOps_fail_fast (fs : FS) (name content : FileName) (w : Bool)
    (pr : Option (List FileName)) (h : safeFilename name = false) :
    ReadFile fs name = ⟨.error .invalidFilename, fs, []⟩ ∧
    WriteFile fs name content w = ⟨.error .invalidFilename, fs, []⟩ ∧
    DeleteFile fs name pr = ⟨.error .invalidFilename, fs, []⟩ := by
  refine ⟨?_, ?_, ?_⟩ <;> simp [ReadFile, WriteFile, DeleteFile, h]

/-- C2 witness: the traversal name "../x" is rejected with no access. -/
theorem fileOps_fail_fast_witness :
    safeFilename ("../x".toList) = false ∧
    ReadFile [] ("../x".toList) = ⟨.error .invalidFilename, [], []⟩ :=
  ⟨by decide, (fileOps_fail_fast [] _ [] true none (by decide)).1⟩

/-- C3: deleting a name of the protected set always fails: `DeleteFile`
returns the protected-file error with no removal attempted (empty access
trace) and an unchanged directory — in particular also when the file is
absent — and the `DataDelete` handler independently answers 403 with the
protected message before invoking the store. -/
theorem protectedDelete_alwaysForbidden (fs : FS) (name : FileName)
    (h : name ∈ protectedFiles) :
    DeleteFile fs name (some protectedFiles) =
      ⟨.error .protectedFile, fs, []⟩ ∧
    dataDelete fs name = (.forbidden (protectedMsg name), fs) := by
  have hcases : name = ".first-mount.sh".toList ∨ name = "lost+found".toList := by
    simpa [protectedFiles] using h
  have hsafe : safeFilename name = true := by
    rcases hcases with rfl | rfl <;> decide
  have htrim : trimSpace name = name := by
    rcases hcases with rfl | rfl <;> decide
  have hne : name ≠ [] := by
    rcases hcases with rfl | rfl <;> decide
  constructor
  · simp [DeleteFile, hsafe, protGuard, h]
  · simp [dataDelete, htrim, hne, h]

/-- C3 witness: deleting "lost+found" from an empty directory (the file
does not exist) still yields the protected-file error, not not-found. -/
theorem protectedDelete_alwaysForbidden_witness :
    ("lost+found".toList ∈ protectedFiles) ∧
    DeleteFile [] ("lost+found".toList) (some protectedFiles) =
      ⟨.error .protectedFile, [], []⟩ :=
  ⟨by decide, (protectedDelete_alwaysForbidden [] _ (by decide)).1⟩

/-- C4: for a safe, unprotected name and any content, write-then-read
returns exactly the written bytes, and write-then-delete-then-read fails
with not-found. -/
theorem writeReadDelete_roundTrip (fs : FS) (name content : FileName)
    (hsafe : safeFilename name = true) (hprot : name ∉ protectedFiles) :
    (WriteFile fs name content true).result = .ok ⟨content.length⟩ ∧
    (ReadFile (WriteFile fs name content true).fs name).result =
      .ok ⟨content.length, content⟩ ∧
    (DeleteFile (WriteFile fs name content true).fs name
      (some protectedFiles)).result = .ok name ∧
    (ReadFile (DeleteFile (WriteFile fs name content true).fs name
      (some protectedFiles)).fs name).result = .error .notFound := by
  have hw : WriteFile fs name content true =
      ⟨.ok ⟨content.length⟩, fsWrite fs name content, [.writeA name]⟩ := by
    simp [WriteFile, hsafe, osWriteFile]
  have hfind := assocFind_fsWrite_self fs name content
  have hdel : DeleteFile (fsWrite fs name content) name (some protectedFiles) =
      ⟨.ok name, fsErase (fsWrite fs name content) name, [.removeA name]⟩ := by
    simp [DeleteFile, hsafe, protGuard, hprot, osRemove, hfind]
  refine ⟨?_, ?_, ?_, ?_⟩
  · rw [hw]
  · rw [hw]
    simp [ReadFile, hsafe, hfind]
  · rw [hw, hdel]
  · rw [hw, hdel]
    simp [ReadFile, hsafe, assocFind_fsErase_self]

/-- C4 witness: the round trip at name "hello.txt" with content "abc". -/
theorem writeReadDelete_roundTrip_witness :
    safeFilename ("hello.txt".toList) = true ∧
    ("hello.txt".toList ∉ protectedFiles) ∧
    (ReadFile (WriteFile [] ("hello.txt".toList) ("abc".toList) true).fs
      ("hello.txt".toList)).result = .ok ⟨("abc".toList).length, "abc".toList⟩ :=
  ⟨by decide, by decide,
    (writeReadDelete_roundTrip [] _ _ (by decide) (by decide)).2.1⟩

/-- C5: the check runner emits 200/"ok" with the full detail and a
non-negative latency when the probe returned no error, emits 503/"error"
with the error message and the partial detail when it did, and satisfies
the two invariants: status is "error" iff the probe erred, and the error
field is present iff status is "error". -/
theorem runCheck_envelope {α : Type} (name : List Char) (ms : Nat) (d : α)
    (err : Option (List Char)) :
    (err = none → runCheck name ms (d, err) =
      ⟨200, "ok".toList, name, (ms : Int), none, d⟩) ∧
    (∀ m, err = some m → runCheck name ms (d, err) =
      ⟨503, "error".toList, name, (ms : Int), some m, d⟩) ∧
    0 ≤ (runCheck name ms (d, err)).latencyMs ∧
    ((runCheck name ms (d, err)).status = "error".toList ↔ err ≠ none) ∧
    ((runCheck name ms (d, err)).errorField ≠ none ↔
      (runCheck name ms (d, err)).status = "error".toList) := by
  cases err <;> simp [runCheck]

/-- C5 witness: the runner at a concrete successful probe outcome. -/
theorem runCheck_envelope_witness :
    ((none : Option (List Char)) = none) ∧
    runCheck ("db".toList) 5 ((0 : Nat), (none : Option (List Char))) =
      ⟨200, "ok".toList, "db".toList, (5 : Int), none, 0⟩ :=
  ⟨rfl, (runCheck_envelope ("db".toList) 5 0 none).1 rfl⟩

/-- The allOK flag of the services loop is the conjunction of the per-URL
outcomes. -/
theorem servicesLoop_allOK (fetch : Url → Except (List Char) Nat)
    (urls : List Url) :
    (servicesLoop fetch urls).2 = urls.all (fun u => svcOK (fetch u)) := by
  induction urls with
  | nil => rfl
  | cons u rest ih => simp [servicesLoop, ih]

/-- Every probed URL has an entry in the services results map. -/
theorem servicesLoop_find (fetch : Url → Except (List Char) Nat)
    (urls : List Url) (u : Url) (hu : u ∈ urls) :
    assocFind (servicesLoop fetch urls).1 u = some (probeEntry (fetch u)) := by
  induction urls with
  | nil => cases hu
  | cons v rest ih =>
    by_cases hv : v = u
    · subst hv
      simp [servicesLoop, assocFind]
    · rcases List.mem_cons.mp hu with h | h
      · exact absurd h.symm hv
      · simp [servicesLoop, assocFind, hv, ih h]

/-- `Services` returns the results map of its loop unchanged. -/
theorem Services_fst (fetch : Url → Except (List Char) Nat) (urls : List Url) :
    (Services fetch urls).1 = (servicesLoop fetch urls).1 := by
  simp only [Services]
  split <;> rfl

/-- C6: if at least one URL fails to connect or answers non-2xx the Services
probe returns the aggregate error; and in every case the per-URL map has an
entry for every input URL — with status "error" and the connection error
message for failing URLs, and status "ok" with the code for 2xx URLs. -/
theorem services_aggregate (fetch : Url → Except (List Char) Nat)
    (urls : List Url) :
    ((∃ u ∈ urls, svcOK (fetch u) = false) →
      (Services fetch urls).2 = some "one or more services failing".toList) ∧
    (∀ u ∈ urls,
      assocFind (Services fetch urls).1 u = some (probeEntry (fetch u))) ∧
    (∀ u ∈ urls, ∀ e, fetch u = .error e →
      assocFind (Services fetch urls).1 u =
        some ⟨"error".toList, none, some e⟩) ∧
    (∀ u ∈ urls, ∀ c, fetch u = .ok c → 200 ≤ c → c < 300 →
      assocFind (Services fetch urls).1 u =
        some ⟨"ok".toList, some c, none⟩) := by
  have hfst := Services_fst fetch urls
  refine ⟨?_, ?_, ?_, ?_⟩
  · rintro ⟨u, hu, hbad⟩
    have hall : (servicesLoop fetch urls).2 = false := by
      rw [servicesLoop_allOK]
      exact List.all_eq_false.mpr ⟨u, hu, by simp [hbad]⟩
    simp [Services, hall]
  · intro u hu
    rw [hfst]
    exact servicesLoop_find fetch urls u hu
  · intro u hu e he
    rw [hfst, servicesLoop_find fetch urls u hu, he]
    rfl
  · intro u hu c hc h1 h2
    rw [hfst, servicesLoop_find fetch urls u hu, hc]
    simp [probeEntry, h1, h2]

/-- C6 witness: one URL answers 200 and one fails to connect; the probe
reports the aggregate error. -/
theorem services_aggregate_witness :
    (∃ u ∈ ["http://ok.example".toList, "http://down.example".toList],
      svcOK (exFetch u) = false) ∧
    (Services exFetch
      ["http://ok.example".toList, "http://down.example".toList]).2 =
      some "one or more services failing".toList :=
  ⟨by decide, (services_aggregate exFetch _).1 (by decide)⟩

/-- C7: on a non-writable directory the self-test fails at the write step
(detail identifies "write", the error is non-nil) and the only access
attempted is the write — no read or delete happens; on a writable directory
it succeeds with match = true, an empty deleteErr, and write/read byte
counts both equal to the temp content length. -/
theorem selfTest_report (fs : FS) (now : List Char) :
    (FilesystemSelfTest fs false now =
      ((.stepDetail "write".toList, some writeErrMsg), fs,
        [.writeA (selfTestName now)])) ∧
    (FilesystemSelfTest fs true now =
      ((.reportDetail (selfTestContent now).length
          (selfTestContent now).length true [], none),
        fsErase (fsWrite fs (selfTestName now) (selfTestContent now))
          (selfTestName now),
        [.writeA (selfTestName now), .readA (selfTestName now),
          .removeA (selfTestName now)])) := by
  constructor
  · simp [FilesystemSelfTest, osWriteFile]
  · simp [FilesystemSelfTest, osWriteFile, assocFind_fsWrite_self, osRemove]

/-- C8 counterexample: on main.go's delete route, deleting "lost+found"
answers 403 but with the fixed body message "file is protected and cannot
be deleted", which differs from the claimed quoted-name body. -/
theorem deleteBody_counterexample :
    (mainDataDelete [] ("lost+found".toList)).1 =
      MainDeleteOut.forbidden ("file is protected and cannot be deleted".toList) ∧
    mainDeleteCode (mainDataDelete [] ("lost+found".toList)).1 = 403 ∧
    ("file is protected and cannot be deleted".toList : List Char) ≠
      ("\"lost+found\" is protected and cannot be deleted".toList) := by decide

/-- C8 (amended): deleting "lost+found" through the monitoring handler's
DataDelete route answers 403 with the error body
""lost+found" is protected and cannot be deleted", while main.go's legacy
delete route answers 403 with the error body
"file is protected and cannot be deleted" (no quoted file name). -/
theorem deleteBody_amended (fs : FS) :
    dataDelete fs ("lost+found".toList) =
      (.forbidden
        ("\"lost+found\" is protected and cannot be deleted".toList), fs) ∧
    dataDeleteCode (dataDelete fs ("lost+found".toList)).1 = 403 ∧
    mainDataDelete fs ("lost+found".toList) =
      (.forbidden ("file is protected and cannot be deleted".toList), fs) ∧
    mainDeleteCode (mainDataDelete fs ("lost+found".toList)).1 = 403 := by
  have h1 : dataDelete fs ("lost+found".toList) =
      (.forbidden
        ("\"lost+found\" is protected and cannot be deleted".toList), fs) := rfl
  have h2 : mainDataDelete fs ("lost+found".toList) =
      (.forbidden ("file is protected and cannot be deleted".toList), fs) := rfl
  refine ⟨h1, ?_, h2, ?_⟩
  · rw [h1]
    rfl
  · rw [h2]
    rfl

/-- C9: with a nil protected map, DeleteFile performs no protected-name
check — it can never return the protected-file error — and proceeds to
attempt the removal (the access trace is exactly one `os.Remove` call),
behaving as the bare removal attempt. -/
theorem deleteFile_nilProtected (fs : FS) (name : FileName)
    (h : safeFilename name = true) :
    (DeleteFile fs name none).result ≠ .error .protectedFile ∧
    (DeleteFile fs name none).accesses = [Access.removeA name] ∧
    DeleteFile fs name none =
      (match osRemove fs name with
        | .ok fs2 => ⟨.ok name, fs2, [.removeA name]⟩
        | .error e => ⟨.error e, fs, [.removeA name]⟩) := by
  cases hfind : assocFind fs name with
  | some c =>
    refine ⟨?_, ?_, ?_⟩ <;> simp [DeleteFile, h, protGuard, osRemove, hfind]
  | none =>
    refine ⟨?_, ?_, ?_⟩ <;> simp [DeleteFile, h, protGuard, osRemove, hfind]

/-- C9 witness: even for the protected name "lost+found", a nil map lets
the removal attempt proceed. -/
theorem deleteFile_nilProtected_witness :
    safeFilename ("lost+found".toList) = true ∧
    (DeleteFile [("lost+found".toList, [])] ("lost+found".toList)
      none).accesses = [Access.removeA ("lost+found".toList)] :=
  ⟨by decide,
    (deleteFile_nilProtected [("lost+found".toList, [])] _ (by decide)).2.1⟩

/-- C10: the Services probe on an empty URL list returns a nil error and an
empty per-URL map. -/
theorem services_empty (fetch : Url → Except (List Char) Nat) :
    Services fetch [] = ([], none) := rfl
